import Mathlib

/-!
# History Rewritten — verification of the deduplication / posting core

A shallow embedding of `src/history_rewritten.py` (class `HistoryRewrittenBot`).
Python strings are modelled as `List Char` (sequences of Unicode code points,
matching Python's `len` and slicing), machine hashing (`hashlib.sha1`) is
implemented bit-faithfully over `Nat` arithmetic mod 2^32, and the float
threshold comparison of `check_uniqueness` is modelled over `ℚ`
(the quantities involved are ratios of small token-set cardinalities).
External collaborators (OpenAI text/image endpoints, the Twitter client,
the filesystem holding `history_log.json`) are modelled as oracles at their
interface boundary, exactly as the orchestrator `run` observes them.
-/

/-- Python `str.lower()`, modelled code-point-wise on the ASCII range
(the range exercised by the gate's tokenization). -/
def pyLower (c : Char) : Char :=
  if 'A' ≤ c ∧ c ≤ 'Z' then Char.ofNat (c.toNat + 32) else c

/-- The characters Python `str.split()` (no separator) splits on:
exactly the code points for which `str.isspace()` holds. -/
def pySpaceChars : List Char :=
  [' ', '\t', '\n', '\x0b', '\x0c', '\r',
   '\x1c', '\x1d', '\x1e', '\x1f', Char.ofNat 0x85, Char.ofNat 0xa0,
   Char.ofNat 0x1680,
   Char.ofNat 0x2000, Char.ofNat 0x2001, Char.ofNat 0x2002, Char.ofNat 0x2003,
   Char.ofNat 0x2004, Char.ofNat 0x2005, Char.ofNat 0x2006, Char.ofNat 0x2007,
   Char.ofNat 0x2008, Char.ofNat 0x2009, Char.ofNat 0x200a,
   Char.ofNat 0x2028, Char.ofNat 0x2029, Char.ofNat 0x202f,
   Char.ofNat 0x205f, Char.ofNat 0x3000]

def pyIsSpace (c : Char) : Bool := pySpaceChars.contains c

/-- Helper for `splitWs`: `acc` holds the current (reversed) in-progress token. -/
def splitWsAux : List Char → List Char → List (List Char)
  | [], acc => if acc = [] then [] else [acc.reverse]
  | c :: rest, acc =>
    if pyIsSpace c then
      if acc = [] then splitWsAux rest [] else acc.reverse :: splitWsAux rest []
    else splitWsAux rest (c :: acc)

/-- Python `str.split()` with no argument: maximal runs of non-whitespace,
leading/trailing/repeated whitespace yields no empty tokens. -/
def splitWs (l : List Char) : List (List Char) := splitWsAux l []

/-- Python `s[:k]` (a prefix slice whose bound may be negative):
nonnegative `k` takes the first `k` characters, negative `k` drops the
last `-k` characters (empty result when `-k` exceeds the length). -/
def pyTake (l : List Char) (k : Int) : List Char :=
  if 0 ≤ k then l.take k.toNat else l.take (l.length - (-k).toNat)

/-! ## SHA-1 (`hashlib.sha1(...).hexdigest()`), bit-faithful over `Nat` -/

/-- 2^32, the word modulus of SHA-1. -/
def w32 : Nat := 4294967296

/-- Rotate a 32-bit word (`x < 2^32`) left by `k` bits. -/
def rotl (k x : Nat) : Nat := ((x <<< k) % w32) ||| (x >>> (32 - k))

/-- Big-endian byte decomposition of `v` into `n` bytes. -/
def toBytesBE (n v : Nat) : List Nat :=
  (List.range n).map (fun i => (v >>> (8 * (n - 1 - i))) % 256)

/-- Assemble one 32-bit word from four big-endian bytes. -/
def wordOfBytes4 (b0 b1 b2 b3 : Nat) : Nat :=
  (b0 <<< 24) + (b1 <<< 16) + (b2 <<< 8) + b3

/-- The sixteen 32-bit big-endian words of one 64-byte chunk. -/
def chunkWords (chunk : List Nat) : List Nat :=
  (List.range 16).map (fun i =>
    wordOfBytes4 (chunk.getD (4 * i) 0) (chunk.getD (4 * i + 1) 0)
      (chunk.getD (4 * i + 2) 0) (chunk.getD (4 * i + 3) 0))

/-- SHA-1 message schedule: expand 16 words to 80. -/
def expandW (ws : List Nat) : List Nat :=
  (List.range 80).foldl (fun acc i =>
    if i < 16 then acc ++ [ws.getD i 0]
    else acc ++ [rotl 1 ((acc.getD (i - 3) 0) ^^^ (acc.getD (i - 8) 0) ^^^
                         (acc.getD (i - 14) 0) ^^^ (acc.getD (i - 16) 0))]) []

/-- SHA-1 round function (the round-dependent boolean mix of `b`, `c`, `d`). -/
def sha1F (i b c d : Nat) : Nat :=
  if i < 20 then (b &&& c) ||| (((w32 - 1) ^^^ b) &&& d)
  else if i < 40 then b ^^^ c ^^^ d
  else if i < 60 then (b &&& c) ||| (b &&& d) ||| (c &&& d)
  else b ^^^ c ^^^ d

/-- SHA-1 round constants. -/
def sha1K (i : Nat) : Nat :=
  if i < 20 then 0x5A827999
  else if i < 40 then 0x6ED9EBA1
  else if i < 60 then 0x8F1BBCDC
  else 0xCA62C1D6

/-- The 80 SHA-1 rounds on state `(a, b, c, d, e)`. -/
def sha1Rounds (w : List Nat) (st : Nat × Nat × Nat × Nat × Nat) :
    Nat × Nat × Nat × Nat × Nat :=
  (List.range 80).foldl (fun st i =>
    let (a, b, c, d, e) := st
    ((rotl 5 a + sha1F i b c d + e + sha1K i + w.getD i 0) % w32,
     a, rotl 30 b, c, d)) st

/-- Absorb one 64-byte chunk into the running hash state. -/
def processChunk (h : Nat × Nat × Nat × Nat × Nat) (chunk : List Nat) :
    Nat × Nat × Nat × Nat × Nat :=
  let (h0, h1, h2, h3, h4) := h
  let (a, b, c, d, e) := sha1Rounds (expandW (chunkWords chunk)) (h0, h1, h2, h3, h4)
  ((h0 + a) % w32, (h1 + b) % w32, (h2 + c) % w32, (h3 + d) % w32, (h4 + e) % w32)

/-- SHA-1 padding: append `0x80`, zeros, then the bit length as 8 big-endian
bytes, reaching a multiple of 64 bytes. -/
def sha1Pad (msg : List Nat) : List Nat :=
  let ml := msg.length
  let padZeros := (64 - ((ml + 9) % 64)) % 64
  msg ++ [128] ++ List.replicate padZeros 0 ++ toBytesBE 8 (ml * 8)

/-- Structural worker for `chunks64`; `fuel` bounds the number of chunks cut. -/
def chunks64Go : Nat → List Nat → List (List Nat)
  | _, [] => []
  | 0, _ => []
  | fuel + 1, l => l.take 64 :: chunks64Go fuel (l.drop 64)

/-- Cut a (padded) byte list into 64-byte chunks. -/
def chunks64 (l : List Nat) : List (List Nat) := chunks64Go l.length l

/-- SHA-1 digest (20 bytes) of a byte message. -/
def sha1Bytes (msg : List Nat) : List Nat :=
  let (h0, h1, h2, h3, h4) :=
    (chunks64 (sha1Pad msg)).foldl processChunk
      (0x67452301, 0xEFCDAB89, 0x98BADCFE, 0x10325476, 0xC3D2E1F0)
  toBytesBE 4 h0 ++ toBytesBE 4 h1 ++ toBytesBE 4 h2 ++ toBytesBE 4 h3 ++ toBytesBE 4 h4

/-- UTF-8 encoding of one Unicode scalar value (Python `str.encode('utf-8')`,
code-point-wise). -/
def utf8Char (c : Char) : List Nat :=
  let n := c.toNat
  if n < 128 then [n]
  else if n < 2048 then [192 + n / 64, 128 + n % 64]
  else if n < 65536 then [224 + n / 4096, 128 + (n / 64) % 64, 128 + n % 64]
  else [240 + n / 262144, 128 + (n / 4096) % 64, 128 + (n / 64) % 64, 128 + n % 64]

/-- UTF-8 encoding of a string. -/
def utf8Bytes (s : List Char) : List Nat :=
  s.foldr (fun c acc => utf8Char c ++ acc) []

/-- Lower-case hex digit for a nibble. -/
def hexChar (n : Nat) : Char := Char.ofNat (if n < 10 then 48 + n else 87 + n)

/-- Lower-case hex rendering of a byte list (`hexdigest()`). -/
def hexOfBytes (bs : List Nat) : List Char :=
  bs.foldr (fun b acc => hexChar (b / 16) :: hexChar (b % 16) :: acc) []

/-- `hashlib.sha1(s.encode('utf-8')).hexdigest()` as a 40-character string. -/
def sha1Hex (s : List Char) : List Char := hexOfBytes (sha1Bytes (utf8Bytes s))

set_option maxRecDepth 10000 in
/-- Validation of the SHA-1 model against the standard test vector for the
three-byte message abc. -/
example : sha1Hex "abc".toList = "a9993e364706816aba3e25717850c26c9cd0d89d".toList := by
  decide

/-! ## Data model -/

/-- A candidate event as returned by `generate_event` (all five fields are
validated present before the dict is returned). -/
structure Event where
  date : List Char
  location : List Char
  title : List Char
  description : List Char
  image_prompt : List Char
deriving DecidableEq

/-- A persisted entry of `history_log.json`. Stored entries are JSON dicts
read back with `entry.get(key, default)`, so every field may be absent:
each is modelled as an `Option`. -/
structure Record where
  timestamp : Option (List Char) := none
  title : Option (List Char) := none
  date : Option (List Char) := none
  location : Option (List Char) := none
  description : Option (List Char) := none
  image_prompt : Option (List Char) := none
  image_path : Option (List Char) := none
  hash : Option (List Char) := none
deriving DecidableEq

/-- The string hashed by `calculate_content_hash`: title, description and
location joined by the pipe character. -/
def hash_content (event : Event) : List Char :=
  event.title ++ '|' :: event.description ++ '|' :: event.location

/-- `calculate_content_hash`: SHA-1 hex digest (UTF-8 encoded) of the
pipe-joined title, description and location. -/
def calculate_content_hash (event : Event) : List Char :=
  sha1Hex (hash_content event)

/-! ## Novelty gate (`check_uniqueness`) -/

/-- The candidate's bag of words:
`set(title.lower().split() + description.lower().split() + location.lower().split())`. -/
def event_words (e : Event) : Finset (List Char) :=
  (splitWs (e.title.map pyLower) ++ splitWs (e.description.map pyLower) ++
    splitWs (e.location.map pyLower)).toFinset

/-- A stored entry's bag of words; each of title, description, location is
read with `entry.get`, defaulting to the empty string when absent. -/
def entry_words (r : Record) : Finset (List Char) :=
  (splitWs ((r.title.getD []).map pyLower) ++ splitWs ((r.description.getD []).map pyLower) ++
    splitWs ((r.location.getD []).map pyLower)).toFinset

/-- The Jaccard similarity as `check_uniqueness` computes it:
`intersection / union if union > 0 else 0` (exact rational arithmetic in
place of Python float division). -/
def jaccard_sim (a b : Finset (List Char)) : ℚ :=
  let intersection := (a ∩ b).card
  let union := (a ∪ b).card
  if union > 0 then (intersection : ℚ) / (union : ℚ) else 0

/-- The second loop of `check_uniqueness`: does any stored entry's word set
have Jaccard similarity strictly above `threshold` with `new_words`? -/
def similarity_reject (history_log : List Record) (new_words : Finset (List Char))
    (threshold : ℚ) : Bool :=
  history_log.any (fun entry =>
    decide (jaccard_sim new_words (entry_words entry) > threshold))

/-- The body of `check_uniqueness` after its `load_history_log()` call: the
exact-hash loop (each early `return False` becomes a `List.any`), then the
Jaccard loop against `threshold`, then `return True`. -/
def check_uniqueness_log (history_log : List Record) (new_event : Event)
    (threshold : ℚ) : Bool :=
  let new_hash := calculate_content_hash new_event
  if history_log.any (fun entry => decide (entry.hash = some new_hash)) then
    false
  else
    let new_words := event_words new_event
    if similarity_reject history_log new_words threshold then
      false
    else
      true

/-! ## History store (`load_history_log` / `save_history_log`)

The persisted `history_log.json` as `load_history_log` can observe it:
the file may be absent (first run), present but unparsable (`json.load`
raises), or a well-formed serialized list of records. -/

inductive StoreFile where
  | absent
  | corrupt
  | good (log : List Record)
deriving DecidableEq

/-- `load_history_log`: `[]` when the file does not exist; `[]` (after
logging) when reading/parsing raises; otherwise the parsed list. -/
def load_history_log : StoreFile → List Record
  | StoreFile.absent => []
  | StoreFile.corrupt => []
  | StoreFile.good log => log

/-- `save_history_log`: serialize the full list, replacing the prior file
contents (JSON round-trips these records exactly). -/
def save_history_log (history_log : List Record) : StoreFile :=
  StoreFile.good history_log

/-- `check_uniqueness` itself first re-reads the store, then runs the gate
body; the default `threshold` is 0.7. -/
def check_uniqueness (store : StoreFile) (new_event : Event)
    (threshold : ℚ := 7/10) : Bool :=
  check_uniqueness_log (load_history_log store) new_event threshold

/-! ## Post text formatting (`format_post_text`) -/

/-- The formatted header of a post: spiral-calendar emoji
(U+1F5D3 U+FE0F) and a space, the date, a newline, the round-pushpin emoji
(U+1F4CD) and a space, the location, then two newlines. -/
def postHeader (date location : List Char) : List Char :=
  [Char.ofNat 0x1F5D3, Char.ofNat 0xFE0F, ' '] ++ date ++
    ['\n', Char.ofNat 0x1F4CD, ' '] ++ location ++ ['\n', '\n']

/-- `format_post_text`: compose header plus description; if the result
exceeds 280 characters, rebuild it as the header, then the prefix slice of
the description bounded by 280 minus the header length minus 3 (a Python
slice whose bound may be negative), then three dots. -/
def format_post_text (event : Event) : List Char :=
  let post_text := postHeader event.date event.location ++ event.description
  if post_text.length > 280 then
    let header := postHeader event.date event.location
    let available_chars : Int := 280 - (header.length : Int) - 3
    let truncated_desc := pyTake event.description available_chars ++ ['.', '.', '.']
    header ++ truncated_desc
  else
    post_text

/-! ## Orchestrator (`run`)

External collaborators are oracles observed exactly where `run` calls them:
`generate` is indexed by call number (`none` models a raised generation
error, caught by `run`'s outer handler), `generate_image` returns the saved
image path or `none` for a raised error, and `publish` models
`media_upload` plus `create_tweet`: `Except.error` for a raised API error,
`Except.ok none` for a response with no data, `Except.ok (some id)` for a
confirmed post. -/
structure Collaborators where
  generate : Nat → Option Event
  generate_image : Event → Option (List Char)
  publish : List Char → List Char → Except Unit (Option (List Char))
  now_iso : List Char

/-- `post_to_x`: format the text, upload and post; `True` only when the
response carries data, `False` on empty response data or any raised error. -/
def post_to_x (c : Collaborators) (event : Event) (image_path : List Char) : Bool :=
  let post_text := format_post_text event
  match c.publish post_text image_path with
  | Except.error _ => false
  | Except.ok none => false
  | Except.ok (some _) => true

/-- The history entry `run` appends after a successful post. -/
def mkEntry (now_iso : List Char) (event : Event) (image_path : List Char) : Record :=
  { timestamp := some now_iso
    title := some event.title
    date := some event.date
    location := some event.location
    description := some event.description
    image_prompt := some event.image_prompt
    image_path := some image_path
    hash := some (calculate_content_hash event) }

/-- Outcome of one `run` invocation: the returned boolean, the store as the
cycle leaves it, and how many `generate_event` calls were made. -/
structure RunResult where
  success : Bool
  store : StoreFile
  gen_calls : Nat
deriving DecidableEq

/-- The tail of `run` once a candidate has passed the gate: generate the
image (a raised error falls to the outer handler), post, and only on a
`True` post result re-load the log, append the entry and save. -/
def run_after_gate (c : Collaborators) (store : StoreFile) (event : Event)
    (gens : Nat) : RunResult :=
  match c.generate_image event with
  | none => ⟨false, store, gens⟩
  | some image_path =>
    if post_to_x c event image_path then
      let history_log := load_history_log store
      ⟨true, save_history_log (history_log ++ [mkEntry c.now_iso event image_path]), gens⟩
    else
      ⟨false, store, gens⟩

/-- `run`: generate, gate; on rejection generate once more and gate again;
a second rejection (or a raised generation error) returns `False` with the
store untouched. -/
def run (c : Collaborators) (store : StoreFile) : RunResult :=
  match c.generate 0 with
  | none => ⟨false, store, 1⟩
  | some event =>
    if check_uniqueness store event then
      run_after_gate c store event 1
    else
      match c.generate 1 with
      | none => ⟨false, store, 2⟩
      | some event2 =>
        if check_uniqueness store event2 then
          run_after_gate c store event2 2
        else
          ⟨false, store, 2⟩

/-! ## Spec-side definitions (for the refinement statements)

These follow the specification's words, to be compared with the
source-derived definitions above. -/

/-- The spec's token set of one field: lower-case, whitespace-tokenize,
collapse duplicates. -/
def token_set (s : List Char) : Finset (List Char) :=
  (splitWs (s.map pyLower)).toFinset

/-- The spec's bag of words for title + description + location: the unique
tokens of the three fields combined into one set. -/
def spec_token_set (title description location : List Char) : Finset (List Char) :=
  token_set title ∪ token_set description ∪ token_set location

/-- The spec's Jaccard similarity: |intersection| / |union|, defined as 0
when both token sets are empty. -/
def spec_jaccard (a b : Finset (List Char)) : ℚ :=
  if a = ∅ ∧ b = ∅ then 0
  else ((a ∩ b).card : ℚ) / ((a ∪ b).card : ℚ)


/-! ## Concrete instances used by the closed witness statements -/

/-- String-literal shorthand for the `List Char` model. -/
def cs (s : String) : List Char := s.toList

/-- A representative candidate event. -/
def baseEv : Event where
  date := cs "July 4, 1901"
  location := cs "Berlin, Germany"
  title := cs "Treaty Signed"
  description := cs "A surprising treaty is signed"
  image_prompt := cs "img prompt"

/-- `baseEv` with only the title changed. -/
def titleVar : Event := { baseEv with title := cs "Treaty Failed" }

/-- `baseEv` with only the description changed. -/
def descVar : Event := { baseEv with description := cs "A surprising treaty collapses" }

/-- `baseEv` with only the location changed. -/
def locVar : Event := { baseEv with location := cs "Vienna, Austria" }

/-- `baseEv` with only the (unhashed) image prompt changed. -/
def promptVar : Event := { baseEv with image_prompt := cs "different prompt" }

/-- A stored record with the same content and stored fingerprint as `baseEv`. -/
def dupRec : Record := mkEntry (cs "t0") baseEv (cs "img0.png")

/-- A stored record sharing all content words with `baseEv` but with no
stored fingerprint. -/
def simRec : Record where
  title := some baseEv.title
  description := some baseEv.description
  location := some baseEv.location

/-- Lower-case-titled event for the case-insensitivity instance. -/
def caseEvLower : Event := { baseEv with title := cs "treaty signed" }

/-- Upper-case-titled twin of `caseEvLower`. -/
def caseEvUpper : Event := { baseEv with title := cs "TREATY SIGNED" }

/-- A stored record with a lower-case title (other fields absent). -/
def caseRecLower : Record := { title := some (cs "treaty signed") }

/-- Upper-case twin of `caseRecLower`. -/
def caseRecUpper : Record := { title := some (cs "TREATY SIGNED") }

/-- The post-cap failing input: a 135-character date, a 135-character
location and a 300-character description. -/
def oversizeEvent : Event where
  date := List.replicate 135 'd'
  location := List.replicate 135 'l'
  title := []
  description := List.replicate 300 'x'
  image_prompt := []

/-- Collaborators that always generate `baseEv`, illustrate, and receive a
confirmed post identifier. -/
def happyCollab : Collaborators where
  generate := fun _ => some baseEv
  generate_image := fun _ => some (cs "p.png")
  publish := fun _ _ => Except.ok (some (cs "12345"))
  now_iso := cs "2026-01-01T00:00:00"

/-- Like `happyCollab`, but the posting call comes back with no response
data (the collaborator's empty-acknowledgment partial failure). -/
def emptyAckCollab : Collaborators :=
  { happyCollab with publish := fun _ _ => Except.ok none }

/-- A store whose single record is near-identical to everything
`happyCollab` generates, so the gate rejects every candidate. -/
def rejectStore : StoreFile := StoreFile.good [simRec]

/-- A store whose single record carries exactly the fingerprint of
everything `happyCollab` generates, so the gate's hash pass rejects every
candidate. -/
def hashRejectStore : StoreFile := StoreFile.good [dupRec]

/-! ## Bridging lemmas (shared) -/

/-- The candidate word set of the code is the spec's token set. -/
lemma event_words_eq_spec (e : Event) :
    event_words e = spec_token_set e.title e.description e.location := by
  simp only [event_words, spec_token_set, token_set, List.toFinset_append]

/-- The stored-entry word set of the code is the spec's token set of the
`get(..., '')`-defaulted fields. -/
lemma entry_words_eq_spec (r : Record) :
    entry_words r =
      spec_token_set (r.title.getD []) (r.description.getD []) (r.location.getD []) := by
  simp only [entry_words, spec_token_set, token_set, List.toFinset_append]

/-- The code's guarded rational division agrees with the spec's Jaccard
similarity (0 on two empty sets). -/
lemma jaccard_sim_eq_spec (a b : Finset (List Char)) :
    jaccard_sim a b = spec_jaccard a b := by
  unfold jaccard_sim spec_jaccard
  by_cases h : a = ∅ ∧ b = ∅
  · obtain ⟨ha, hb⟩ := h
    subst ha; subst hb
    simp
  · have hne : a ∪ b ≠ ∅ := fun he => h (Finset.union_eq_empty.mp he)
    have hpos : 0 < (a ∪ b).card :=
      Finset.card_pos.mpr (Finset.nonempty_iff_ne_empty.mpr hne)
    rw [if_neg h, if_pos hpos]

/-- `post_to_x` returns `True` exactly when the publish call returns a
response carrying data. -/
lemma post_to_x_true_iff (c : Collaborators) (e : Event) (p : List Char) :
    post_to_x c e p = true ↔
      ∃ post_id, c.publish (format_post_text e) p = Except.ok (some post_id) := by
  simp only [post_to_x]
  cases h : c.publish (format_post_text e) p with
  | error u => simp
  | ok o => cases o <;> simp

/-! ## Claims -/

/-- C2: if the candidate's fingerprint equals the stored `hash` field of any
record in the history, `check_uniqueness` returns `False`, regardless of any
similarity score. -/
theorem check_uniqueness_rejects_hash_match (store : StoreFile) (C : Event)
    (threshold : ℚ) (r : Record) (hr : r ∈ load_history_log store)
    (hh : r.hash = some (calculate_content_hash C)) :
    check_uniqueness store C threshold = false := by
  have h1 : ((load_history_log store).any fun entry =>
      decide (entry.hash = some (calculate_content_hash C))) = true :=
    List.any_eq_true.mpr ⟨r, hr, by simp [hh]⟩
  simp only [check_uniqueness, check_uniqueness_log, h1, if_true]

/-- C2 witness: a history holding the record written for `baseEv` makes the
gate reject `baseEv` at the default threshold. -/
theorem check_uniqueness_rejects_hash_match_inst :
    check_uniqueness (StoreFile.good [dupRec]) baseEv (7/10) = false :=
  check_uniqueness_rejects_hash_match (StoreFile.good [dupRec]) baseEv (7/10)
    dupRec (by simp [load_history_log]) rfl

/-- C7: loading immediately after appending a record to the loaded sequence
and saving yields exactly the old sequence with the record at the end: the
earlier records are preserved in order, the last element is the appended
record, and the length grows by one. -/
theorem load_after_append_and_save (store : StoreFile) (r : Record) :
    load_history_log (save_history_log (load_history_log store ++ [r])) =
        load_history_log store ++ [r] ∧
    (load_history_log (save_history_log (load_history_log store ++ [r]))).getLast? =
        some r ∧
    (load_history_log (save_history_log (load_history_log store ++ [r]))).length =
        (load_history_log store).length + 1 := by
  refine ⟨rfl, ?_, by simp [load_history_log, save_history_log]⟩
  simp [load_history_log, save_history_log]

/-- C8: loading a nonexistent log file yields the empty sequence, and so
does loading a present but unparsable one (`load_history_log` is total:
neither case propagates an error). -/
theorem load_degrades_to_empty :
    load_history_log StoreFile.absent = [] ∧
    load_history_log StoreFile.corrupt = [] :=
  ⟨rfl, rfl⟩

/-- A stored record with its missing title/description/location filled in
as empty strings. -/
def fill_missing (r : Record) : Record :=
  { r with
    title := some (r.title.getD [])
    description := some (r.description.getD [])
    location := some (r.location.getD []) }

/-- C9: the gate treats a record's missing title/description/location as
empty strings — its word set, and the whole (total, never-failing) gate
result over any history, are unchanged by filling the missing fields with
empty strings. -/
theorem gate_treats_missing_fields_as_empty (C : Event) (threshold : ℚ) :
    (∀ r : Record, entry_words (fill_missing r) = entry_words r) ∧
    (∀ H : List Record,
      check_uniqueness_log (H.map fill_missing) C threshold =
        check_uniqueness_log H C threshold) := by
  have hwords : ∀ r : Record, entry_words (fill_missing r) = entry_words r := by
    intro r
    simp [entry_words, fill_missing]
  refine ⟨hwords, fun H => ?_⟩
  have hany : ∀ p : Record → Bool, (∀ r, p (fill_missing r) = p r) →
      (H.map fill_missing).any p = H.any p := by
    intro p hp
    induction H with
    | nil => rfl
    | cons r t ih => simp [hp, ih]
  simp only [check_uniqueness_log, similarity_reject]
  simp only [hany (fun entry => decide (entry.hash = some (calculate_content_hash C)))
      (fun r => rfl),
    hany (fun entry => decide (jaccard_sim (event_words C) (entry_words entry) > threshold))
      (fun r => by simp only [hwords])]

/-- C1: when no stored record's fingerprint matches the candidate's,
`check_uniqueness` returns `False` exactly when some record's Jaccard
similarity with the candidate — on the spec's token sets (lower-cased,
whitespace-split unique tokens of title + description + location, with the
similarity of two empty sets defined as 0) — strictly exceeds the
threshold (0.7 by default; stated for every threshold). -/
theorem check_uniqueness_matches_spec_jaccard (store : StoreFile) (C : Event)
    (threshold : ℚ)
    (hno : ∀ r ∈ load_history_log store, r.hash ≠ some (calculate_content_hash C)) :
    check_uniqueness store C threshold = false ↔
      ∃ r ∈ load_history_log store,
        spec_jaccard (spec_token_set C.title C.description C.location)
          (spec_token_set (r.title.getD []) (r.description.getD []) (r.location.getD []))
          > threshold := by
  have h1 : ((load_history_log store).any fun entry =>
      decide (entry.hash = some (calculate_content_hash C))) = false := by
    rw [List.any_eq_false]
    intro r hr
    simpa using hno r hr
  have hpt : ∀ r : Record,
      spec_jaccard (spec_token_set C.title C.description C.location)
        (spec_token_set (r.title.getD []) (r.description.getD []) (r.location.getD []))
      = jaccard_sim (event_words C) (entry_words r) := by
    intro r
    rw [jaccard_sim_eq_spec, event_words_eq_spec, entry_words_eq_spec]
  simp only [check_uniqueness, check_uniqueness_log, h1, Bool.false_eq_true, if_false]
  constructor
  · intro hfalse
    by_cases h2 : similarity_reject (load_history_log store) (event_words C) threshold = true
    · obtain ⟨r, hr, hd⟩ := List.any_eq_true.mp h2
      exact ⟨r, hr, by rw [hpt r]; exact of_decide_eq_true hd⟩
    · simp [h2] at hfalse
  · rintro ⟨r, hr, hsim⟩
    have h2 : similarity_reject (load_history_log store) (event_words C) threshold = true :=
      List.any_eq_true.mpr ⟨r, hr, decide_eq_true (by rw [← hpt r]; exact hsim)⟩
    simp [h2]

set_option maxRecDepth 40000 in
/-- C1 witness: against a history holding one record with no stored
fingerprint but identical content words, the gate rejects and the spec-side
similarity indeed exceeds 0.7. -/
theorem check_uniqueness_matches_spec_jaccard_inst :
    check_uniqueness rejectStore baseEv (7/10) = false ↔
      ∃ r ∈ load_history_log rejectStore,
        spec_jaccard (spec_token_set baseEv.title baseEv.description baseEv.location)
          (spec_token_set (r.title.getD []) (r.description.getD []) (r.location.getD []))
          > (7/10 : ℚ) :=
  check_uniqueness_matches_spec_jaccard rejectStore baseEv (7/10) (by decide)

set_option maxRecDepth 40000 in
/-- C3 (bug evidence): on an event whose date and location are each 135
characters and whose description is 300 characters, the composed text
(which exceeds 280) is truncated with a negative slice bound that drops
just one character, and `format_post_text` returns 580 characters — far
above the 280 cap. -/
theorem format_post_text_exceeds_cap_on_long_header :
    (format_post_text oversizeEvent).length = 580 ∧
    280 < (format_post_text oversizeEvent).length := by
  constructor <;> decide

set_option maxRecDepth 40000 in
/-- C4: the fingerprint is a pure function of the (title, description,
location) triple — equal triples give equal digests; changing exactly one of
the three fields always changes the hashed content string, and on the test
corpus (`baseEv` and its three single-field variants) it changes the SHA-1
digest itself. -/
theorem calculate_content_hash_deterministic_and_field_sensitive :
    (∀ e₁ e₂ : Event, e₁.title = e₂.title → e₁.description = e₂.description →
      e₁.location = e₂.location →
      calculate_content_hash e₁ = calculate_content_hash e₂) ∧
    (∀ e₁ e₂ : Event, e₁.description = e₂.description → e₁.location = e₂.location →
      e₁.title ≠ e₂.title → hash_content e₁ ≠ hash_content e₂) ∧
    (∀ e₁ e₂ : Event, e₁.title = e₂.title → e₁.location = e₂.location →
      e₁.description ≠ e₂.description → hash_content e₁ ≠ hash_content e₂) ∧
    (∀ e₁ e₂ : Event, e₁.title = e₂.title → e₁.description = e₂.description →
      e₁.location ≠ e₂.location → hash_content e₁ ≠ hash_content e₂) ∧
    calculate_content_hash baseEv ≠ calculate_content_hash titleVar ∧
    calculate_content_hash baseEv ≠ calculate_content_hash descVar ∧
    calculate_content_hash baseEv ≠ calculate_content_hash locVar := by
  refine ⟨?_, ?_, ?_, ?_, by decide, by decide, by decide⟩
  · intro e₁ e₂ ht hd hl
    unfold calculate_content_hash hash_content
    rw [ht, hd, hl]
  · intro e₁ e₂ hd hl hne hcontra
    unfold hash_content at hcontra
    rw [hd, hl] at hcontra
    exact hne (List.append_cancel_right (List.append_cancel_right hcontra))
  · intro e₁ e₂ ht hl hne hcontra
    unfold hash_content at hcontra
    rw [ht, hl] at hcontra
    have h2 := List.append_cancel_left (List.append_cancel_right hcontra)
    exact hne ((List.cons.injEq _ _ _ _).mp h2).2
  · intro e₁ e₂ ht hd hne hcontra
    unfold hash_content at hcontra
    rw [ht, hd] at hcontra
    have h2 := List.append_cancel_left hcontra
    exact hne ((List.cons.injEq _ _ _ _).mp h2).2

/-- C4 witness: two events with identical (title, description, location)
triples — differing only in the unhashed image prompt — get identical
fingerprints. -/
theorem calculate_content_hash_deterministic_and_field_sensitive_inst :
    calculate_content_hash baseEv = calculate_content_hash promptVar :=
  calculate_content_hash_deterministic_and_field_sensitive.1 baseEv promptVar rfl rfl rfl

/-- The gate-passed tail of `run` reports exactly the generation count it
was handed. -/
lemma run_after_gate_gen_calls (c : Collaborators) (s : StoreFile) (e : Event)
    (g : Nat) : (run_after_gate c s e g).gen_calls = g := by
  unfold run_after_gate
  cases c.generate_image e with
  | none => rfl
  | some p => by_cases hp : post_to_x c e p = true <;> simp [hp]

/-- After the gate, either the cycle fails and the store is untouched, or it
succeeds with a confirmed publish and the appended store. -/
lemma run_after_gate_store_discipline (c : Collaborators) (s : StoreFile)
    (e : Event) (g : Nat) :
    ((run_after_gate c s e g).success = false → (run_after_gate c s e g).store = s) ∧
    ((run_after_gate c s e g).success = true → ∃ image_path post_id,
      c.generate_image e = some image_path ∧
      c.publish (format_post_text e) image_path = Except.ok (some post_id) ∧
      (run_after_gate c s e g).store =
        save_history_log (load_history_log s ++ [mkEntry c.now_iso e image_path])) := by
  cases hi : c.generate_image e with
  | none =>
    have hr : run_after_gate c s e g = ⟨false, s, g⟩ := by
      simp [run_after_gate, hi]
    rw [hr]
    exact ⟨fun _ => rfl, fun hs => Bool.noConfusion hs⟩
  | some p =>
    by_cases hp : post_to_x c e p = true
    · have hr : run_after_gate c s e g =
          ⟨true, save_history_log (load_history_log s ++ [mkEntry c.now_iso e p]), g⟩ := by
        simp [run_after_gate, hi, hp]
      rw [hr]
      refine ⟨fun hf => Bool.noConfusion hf, fun _ => ?_⟩
      obtain ⟨post_id, hid⟩ := (post_to_x_true_iff c e p).mp hp
      exact ⟨p, post_id, rfl, hid, rfl⟩
    · have hp' : post_to_x c e p = false := by simpa using hp
      have hr : run_after_gate c s e g = ⟨false, s, g⟩ := by
        simp [run_after_gate, hi, hp']
      rw [hr]
      exact ⟨fun _ => rfl, fun hs => Bool.noConfusion hs⟩

/-- C5: every invocation of `run` makes at most two generation calls; when
the gate rejects the first candidate there is exactly one re-generation and
re-gate attempt (two generation calls in total), and when that second
candidate is also rejected the cycle terminates as a failure. -/
theorem run_single_retry_bound (c : Collaborators) (store : StoreFile) :
    (run c store).gen_calls ≤ 2 ∧
    (∀ ev, c.generate 0 = some ev → check_uniqueness store ev = false →
      (run c store).gen_calls = 2 ∧
      (∀ ev2, c.generate 1 = some ev2 → check_uniqueness store ev2 = false →
        (run c store).success = false)) := by
  cases h0 : c.generate 0 with
  | none =>
    exact ⟨by simp [run, h0], fun ev hev _ => Option.noConfusion hev⟩
  | some ev =>
    by_cases hg : check_uniqueness store ev = true
    · have hr : run c store = run_after_gate c store ev 1 := by
        simp [run, h0, hg]
      refine ⟨by rw [hr, run_after_gate_gen_calls]; omega, fun ev' hev' hrej => ?_⟩
      injection hev' with heq
      subst heq
      rw [hg] at hrej
      exact Bool.noConfusion hrej
    · have hg' : check_uniqueness store ev = false := by simpa using hg
      cases h1 : c.generate 1 with
      | none =>
        have hr : run c store = ⟨false, store, 2⟩ := by simp [run, h0, hg', h1]
        exact ⟨by rw [hr], fun ev' hev' _ =>
          ⟨by rw [hr], fun ev2 hev2 _ => Option.noConfusion hev2⟩⟩
      | some ev2 =>
        by_cases hg2 : check_uniqueness store ev2 = true
        · have hr : run c store = run_after_gate c store ev2 2 := by
            simp [run, h0, hg', h1, hg2]
          refine ⟨by rw [hr, run_after_gate_gen_calls], fun ev' hev' _ =>
            ⟨by rw [hr, run_after_gate_gen_calls], fun ev2' hev2' hrej2 => ?_⟩⟩
          injection hev2' with heq
          subst heq
          rw [hg2] at hrej2
          exact Bool.noConfusion hrej2
        · have hg2' : check_uniqueness store ev2 = false := by simpa using hg2
          have hr : run c store = ⟨false, store, 2⟩ := by
            simp [run, h0, hg', h1, hg2']
          exact ⟨by rw [hr], fun ev' hev' _ =>
            ⟨by rw [hr], fun ev2' hev2' _ => by rw [hr]⟩⟩

set_option maxRecDepth 40000 in
/-- C5 witness: a generator that twice produces an event near-identical to a
stored record makes the cycle use exactly two generation calls and fail. -/
theorem run_single_retry_bound_inst :
    (run happyCollab hashRejectStore).gen_calls = 2 ∧
    (run happyCollab hashRejectStore).success = false := by
  have h := (run_single_retry_bound happyCollab hashRejectStore).2 baseEv rfl (by decide)
  exact ⟨h.1, h.2 baseEv rfl (by decide)⟩

/-- C6: whenever a cycle terminates as a failure — a raised generation
error, two consecutive novelty rejections, a raised illustration error, or
a publish failure including an empty acknowledgment — the history store is
left exactly as it was; the store changes only on success, which carries a
confirmed publish response, and then by appending the single new record. -/
theorem run_appends_only_after_confirmed_publish (c : Collaborators) (store : StoreFile) :
    ((run c store).success = false → (run c store).store = store) ∧
    ((run c store).success = true → ∃ ev image_path post_id,
      c.generate_image ev = some image_path ∧
      c.publish (format_post_text ev) image_path = Except.ok (some post_id) ∧
      (run c store).store =
        save_history_log (load_history_log store ++ [mkEntry c.now_iso ev image_path])) := by
  cases h0 : c.generate 0 with
  | none =>
    have hr : run c store = ⟨false, store, 1⟩ := by simp [run, h0]
    rw [hr]
    exact ⟨fun _ => rfl, fun hs => by simp at hs⟩
  | some ev =>
    by_cases hg : check_uniqueness store ev = true
    · have hr : run c store = run_after_gate c store ev 1 := by simp [run, h0, hg]
      rw [hr]
      have h := run_after_gate_store_discipline c store ev 1
      exact ⟨h.1, fun hs => ⟨ev, h.2 hs⟩⟩
    · have hg' : check_uniqueness store ev = false := by simpa using hg
      cases h1 : c.generate 1 with
      | none =>
        have hr : run c store = ⟨false, store, 2⟩ := by simp [run, h0, hg', h1]
        rw [hr]
        exact ⟨fun _ => rfl, fun hs => by simp at hs⟩
      | some ev2 =>
        by_cases hg2 : check_uniqueness store ev2 = true
        · have hr : run c store = run_after_gate c store ev2 2 := by
            simp [run, h0, hg', h1, hg2]
          rw [hr]
          have h := run_after_gate_store_discipline c store ev2 2
          exact ⟨h.1, fun hs => ⟨ev2, h.2 hs⟩⟩
        · have hg2' : check_uniqueness store ev2 = false := by simpa using hg2
          have hr : run c store = ⟨false, store, 2⟩ := by
            simp [run, h0, hg', h1, hg2']
          rw [hr]
          exact ⟨fun _ => rfl, fun hs => by simp at hs⟩

set_option maxRecDepth 40000 in
/-- C6 witness: with a publisher that acknowledges with no response data,
the cycle fails and the (initially nonexistent) store is left untouched. -/
theorem run_appends_only_after_confirmed_publish_inst :
    (run emptyAckCollab StoreFile.absent).store = StoreFile.absent :=
  (run_appends_only_after_confirmed_publish emptyAckCollab StoreFile.absent).1 (by decide)

/-- Candidate word sets depend only on the lower-cased fields. -/
lemma event_words_lower_eq (e e' : Event)
    (h1 : e.title.map pyLower = e'.title.map pyLower)
    (h2 : e.description.map pyLower = e'.description.map pyLower)
    (h3 : e.location.map pyLower = e'.location.map pyLower) :
    event_words e = event_words e' := by
  unfold event_words
  rw [h1, h2, h3]

/-- Stored-entry word sets depend only on the lower-cased defaulted fields. -/
lemma entry_words_lower_eq (r r' : Record)
    (h1 : (r.title.getD []).map pyLower = (r'.title.getD []).map pyLower)
    (h2 : (r.description.getD []).map pyLower = (r'.description.getD []).map pyLower)
    (h3 : (r.location.getD []).map pyLower = (r'.location.getD []).map pyLower) :
    entry_words r = entry_words r' := by
  unfold entry_words
  rw [h1, h2, h3]

set_option maxRecDepth 40000 in
/-- C10: the Jaccard similarity `check_uniqueness` computes is invariant
under changing the letter case of the title, description or location on
either side, and so is the whole similarity-pass decision over a history;
the exact-hash pass, by contrast, is case-sensitive: two events whose
titles differ only by case get different fingerprints. -/
theorem similarity_case_insensitive_hash_case_sensitive :
    (∀ (e e' : Event) (r r' : Record),
      e.title.map pyLower = e'.title.map pyLower →
      e.description.map pyLower = e'.description.map pyLower →
      e.location.map pyLower = e'.location.map pyLower →
      (r.title.getD []).map pyLower = (r'.title.getD []).map pyLower →
      (r.description.getD []).map pyLower = (r'.description.getD []).map pyLower →
      (r.location.getD []).map pyLower = (r'.location.getD []).map pyLower →
      jaccard_sim (event_words e) (entry_words r) =
        jaccard_sim (event_words e') (entry_words r')) ∧
    (∀ (e e' : Event) (threshold : ℚ) (H H' : List Record),
      e.title.map pyLower = e'.title.map pyLower →
      e.description.map pyLower = e'.description.map pyLower →
      e.location.map pyLower = e'.location.map pyLower →
      List.Forall₂ (fun r r' : Record =>
        (r.title.getD []).map pyLower = (r'.title.getD []).map pyLower ∧
        (r.description.getD []).map pyLower = (r'.description.getD []).map pyLower ∧
        (r.location.getD []).map pyLower = (r'.location.getD []).map pyLower) H H' →
      similarity_reject H (event_words e) threshold =
        similarity_reject H' (event_words e') threshold) ∧
    (caseEvLower.title.map pyLower = caseEvUpper.title.map pyLower ∧
      calculate_content_hash caseEvLower ≠ calculate_content_hash caseEvUpper) := by
  refine ⟨?_, ?_, by decide, by decide⟩
  · intro e e' r r' h1 h2 h3 h4 h5 h6
    rw [event_words_lower_eq e e' h1 h2 h3, entry_words_lower_eq r r' h4 h5 h6]
  · intro e e' threshold H H' h1 h2 h3 hf
    rw [event_words_lower_eq e e' h1 h2 h3]
    induction hf with
    | nil => rfl
    | cons hrr _htail ih =>
      obtain ⟨h4, h5, h6⟩ := hrr
      simp only [similarity_reject, List.any_cons] at ih ⊢
      rw [entry_words_lower_eq _ _ h4 h5 h6, ih]

set_option maxRecDepth 40000 in
/-- C10 witness: an upper-cased title on either the candidate or the stored
record leaves the computed Jaccard similarity unchanged. -/
theorem similarity_case_insensitive_hash_case_sensitive_inst :
    jaccard_sim (event_words caseEvLower) (entry_words caseRecLower) =
      jaccard_sim (event_words caseEvUpper) (entry_words caseRecUpper) :=
  similarity_case_insensitive_hash_case_sensitive.1 caseEvLower caseEvUpper
    caseRecLower caseRecUpper (by decide) rfl rfl (by decide) rfl rfl
